import Mathlib

/-!
Shallow embedding of the SMS-reply polling and unsubscribe pipeline of
DEFRA/aqie-notify-service (`src/subscribe/services/sms-reply.service.js`,
`src/subscribe/controllers/sms-reply.controller.js`).

The JavaScript service is asynchronous but strictly sequential within one
run, so it is embedded as explicit state passing: the MongoDB collection
`sms_replies` becomes a list of records (insertion order), the outbound
HTTP POSTs to the alert backend become a log of called phone numbers, and
a thrown exception becomes `Except.error`.  The `sms_replies` collection
has a unique index on `messageId` (declared in the repository's
architecture document: `db.sms_replies.createIndex({ messageId: 1 },
{ unique: true })`), so `insertOne` of an already-present `messageId`
rejects with a duplicate-key error.
-/

deriving instance DecidableEq for Except

/-- `String.prototype.toLowerCase()`, modelled character-wise (the
relevant contents are ASCII). -/
def jsToLower (s : String) : String :=
  ⟨s.data.map Char.toLower⟩

/-- `String.prototype.trim()`: strip leading and trailing whitespace,
modelled character-wise. -/
def jsTrim (s : String) : String :=
  ⟨((s.data.dropWhile Char.isWhitespace).reverse.dropWhile
      Char.isWhitespace).reverse⟩

/-- `String.prototype.startsWith('+')`: does the first character exist
and equal `'+'`. -/
def jsStartsWithPlus (s : String) : Bool :=
  match s.data with
  | [] => false
  | c :: _ => c == '+'

/-- An inbound provider message as returned by `getReceivedTexts`:
fields `id`, `user_number`, `content`, `created_at` (timestamp modelled
as a natural number). -/
structure Msg where
  id : String
  user_number : String
  content : String
  created_at : Nat
deriving Repr, DecidableEq

/-- The terminal statuses a ledger record can carry. -/
inductive Status where
  | unsubscribed
  | user_not_found
  | duplicate_stop
  | ignored
deriving Repr, DecidableEq

/-- A record of the `sms_replies` collection, as written by
`markProcessed` and the two `insertOne` calls inside `handleStop`. -/
structure LedgerRecord where
  messageId : String
  phoneNumber : String
  content : String
  receivedAt : Nat
  status : Status
  processedAt : Nat
deriving Repr, DecidableEq

/-- The parsed backend response: HTTP status and the optional `error`
field of the JSON body (`result.error`). -/
structure BackendResp where
  status : Nat
  error : Option String
deriving Repr, DecidableEq

/-- The exceptions the pipeline can raise: a provider fetch rejection, a
backend transport (fetch) rejection, the explicit
`new Error(result.error || ...)` on an unexpected backend status, and a
MongoDB duplicate-key rejection on the unique `messageId` index. -/
inductive SmsError where
  | fetchFailure (msg : String)
  | transport (msg : String)
  | backendStatus (msg : String)
  | duplicateKey (messageId : String)
deriving Repr, DecidableEq

/-- The external world one run interacts with: the provider feed
(`client.getReceivedTexts()`: rejection, or a response whose
`received_text_messages` field may be absent), the alert backend
(`fetch` of `/opt-out-alert`: rejection, or a parsed response, as a
function of the posted phone number), and the wall clock used for
`processedAt`. -/
structure Env where
  feed : Except String (Option (List Msg))
  backend : String → Except String BackendResp
  now : Nat

/-- The observable persistent state: the `sms_replies` collection in
insertion order, and the log of phone numbers POSTed to the backend
opt-out endpoint. -/
structure DbState where
  ledger : List LedgerRecord
  calls : List String
deriving Repr, DecidableEq

/-- `isProcessed(messageId)`: `findOne({ messageId })` followed by
`!!record` — true iff some record with that `messageId` exists. -/
def isProcessed (ledger : List LedgerRecord) (messageId : String) : Bool :=
  ledger.any (fun r => r.messageId == messageId)

/-- `db.collection('sms_replies').insertOne(record)` under the unique
index on `messageId`: appends the record, or rejects with a
duplicate-key error when the id is already present. -/
def insertOne (st : DbState) (r : LedgerRecord) :
    DbState × Except SmsError Unit :=
  if isProcessed st.ledger r.messageId then
    (st, .error (.duplicateKey r.messageId))
  else
    ({ st with ledger := st.ledger ++ [r] }, .ok ())

/-- `markProcessed(messageId, phoneNumber, content, createdAt, status)`:
a single `insertOne` building the record from its arguments and the
clock. -/
def markProcessed (st : DbState) (messageId phoneNumber content : String)
    (createdAt now : Nat) (status : Status) :
    DbState × Except SmsError Unit :=
  insertOne st ⟨messageId, phoneNumber, content, createdAt, status, now⟩

/-- The phone normalization inlined at the top of `processMessage`:
`msg.user_number.startsWith('+') ? msg.user_number :
'+' + msg.user_number`. -/
def normalizePhone (s : String) : String :=
  if jsStartsWithPlus s then s else "+" ++ s

/-- The content normalization inlined in `processMessage`:
`msg.content.trim().toLowerCase()`. -/
def normalizeContent (s : String) : String :=
  jsToLower (jsTrim s)

/-- `handleStop(phoneNumber, msg, processedPhones)`.  If the phone is in
the per-run set, one `markProcessed` with `duplicate_stop`.  Otherwise a
POST to `/opt-out-alert` (logged in `calls`); on 200 / 404 an
`insertOne` with `unsubscribed` / `user_not_found` and the phone joins
the set; on any other status the function throws
`new Error(result.error || 'Backend returned ' + status)` and writes
nothing.  The surrounding `try`/`catch` logs and rethrows, so every
error propagates unchanged. -/
def handleStop (env : Env) (phoneNumber : String) (msg : Msg)
    (processedPhones : List String) (st : DbState) :
    DbState × Except SmsError (List String) :=
  if processedPhones.contains phoneNumber then
    match markProcessed st msg.id phoneNumber msg.content msg.created_at
        env.now .duplicate_stop with
    | (st', .ok _) => (st', .ok processedPhones)
    | (st', .error e) => (st', .error e)
  else
    let st1 : DbState := { st with calls := st.calls ++ [phoneNumber] }
    match env.backend phoneNumber with
    | .error e => (st1, .error (.transport e))
    | .ok resp =>
      if resp.status == 200 then
        match insertOne st1 ⟨msg.id, phoneNumber, msg.content,
            msg.created_at, .unsubscribed, env.now⟩ with
        | (st', .ok _) => (st', .ok (processedPhones ++ [phoneNumber]))
        | (st', .error e) => (st', .error e)
      else if resp.status == 404 then
        match insertOne st1 ⟨msg.id, phoneNumber, msg.content,
            msg.created_at, .user_not_found, env.now⟩ with
        | (st', .ok _) => (st', .ok (processedPhones ++ [phoneNumber]))
        | (st', .error e) => (st', .error e)
      else
        (st1, .error (.backendStatus
          (resp.error.getD ("Backend returned " ++ toString resp.status))))

/-- `processMessage(msg, processedPhones)`: normalize the phone and the
content, branch on `content === 'stop'`; the non-stop branch is one
`markProcessed` with `ignored`. -/
def processMessage (env : Env) (msg : Msg) (processedPhones : List String)
    (st : DbState) : DbState × Except SmsError (List String) :=
  let phoneNumber := normalizePhone msg.user_number
  if normalizeContent msg.content == "stop" then
    handleStop env phoneNumber msg processedPhones st
  else
    match markProcessed st msg.id phoneNumber msg.content msg.created_at
        env.now .ignored with
    | (st', .ok _) => (st', .ok processedPhones)
    | (st', .error e) => (st', .error e)

/-- The `for (const msg of messages)` loop of `pollAndProcessReplies`:
skip a message whose id `isProcessed` finds, otherwise run
`processMessage` and count it; an exception aborts the loop.  Returns
the `newMessages` count and the final per-run phone set. -/
def processMessages (env : Env) :
    List Msg → List String → DbState →
    DbState × Except SmsError (Nat × List String)
  | [], phones, st => (st, .ok (0, phones))
  | msg :: rest, phones, st =>
    if isProcessed st.ledger msg.id then
      processMessages env rest phones st
    else
      match processMessage env msg phones st with
      | (st', .error e) => (st', .error e)
      | (st', .ok phones') =>
        match processMessages env rest phones' st' with
        | (st'', .error e) => (st'', .error e)
        | (st'', .ok (n, ph)) => (st'', .ok (n + 1, ph))

/-- `pollAndProcessReplies()`: fetch the feed
(`response.data.received_text_messages || []`), run the loop with a
fresh `processedPhones` set, and return
`{ total: messages.length, processed: newMessages }`.  The `catch`
merely logs and rethrows. -/
def pollAndProcessReplies (env : Env) (st : DbState) :
    DbState × Except SmsError (Nat × Nat) :=
  match env.feed with
  | .error e => (st, .error (.fetchFailure e))
  | .ok feedOpt =>
    let messages := feedOpt.getD []
    match processMessages env messages [] st with
    | (st', .error e) => (st', .error e)
    | (st', .ok (n, _)) => (st', .ok (messages.length, n))

/-- The HTTP response of the manual-trigger route, restricted to the
fields the handler sets. -/
structure HttpResponse where
  statusCode : Nat
  success : Option Bool
  total : Option Nat
  processed : Option Nat
  error : Option String
  message : Option String
deriving Repr, DecidableEq

/-- `Boom.internal(msg)` as the repository documents its own endpoint's
error payload (`{"statusCode": 500, "error": "Internal Server Error",
"message": "Failed to process SMS replies"}` in
`docs`): a 500 response carrying the generic error name and the given
message, and none of the success fields. -/
def boomInternal (msg : String) : HttpResponse :=
  ⟨500, none, none, none, some "Internal Server Error", some msg⟩

/-- `processSmsRepliesHandler`: run `pollAndProcessReplies`; on normal
return answer 200 with `{success: true, total, processed}`, on a thrown
error answer `Boom.internal('Failed to process SMS replies')`. -/
def processSmsRepliesHandler (env : Env) (st : DbState) : HttpResponse :=
  match pollAndProcessReplies env st with
  | (_, .ok (t, p)) => ⟨200, some true, some t, some p, none, none⟩
  | (_, .error _) => boomInternal "Failed to process SMS replies"

/-! ### Step characterizations of the individual operations -/

lemma isProcessed_append (L ext : List LedgerRecord) (mid : String) :
    isProcessed (L ++ ext) mid = (isProcessed L mid || isProcessed ext mid) := by
  simp [isProcessed, List.any_append]

lemma insertOne_of_dup {st : DbState} {r : LedgerRecord}
    (h : isProcessed st.ledger r.messageId = true) :
    insertOne st r = (st, .error (.duplicateKey r.messageId)) := by
  simp [insertOne, h]

lemma insertOne_of_new {st : DbState} {r : LedgerRecord}
    (h : isProcessed st.ledger r.messageId = false) :
    insertOne st r = ({ st with ledger := st.ledger ++ [r] }, .ok ()) := by
  simp [insertOne, h]

lemma handleStop_dup {env : Env} {pn : String} {msg : Msg}
    {phones : List String} {st : DbState}
    (hin : pn ∈ phones)
    (hnew : isProcessed st.ledger msg.id = false) :
    handleStop env pn msg phones st =
      ({ st with ledger := st.ledger ++
          [⟨msg.id, pn, msg.content, msg.created_at, .duplicate_stop, env.now⟩] },
       .ok phones) := by
  simp [handleStop, markProcessed, insertOne, hin, hnew]

lemma handleStop_transport {env : Env} {pn : String} {msg : Msg}
    {phones : List String} {st : DbState} {s : String}
    (hin : pn ∉ phones)
    (hb : env.backend pn = .error s) :
    handleStop env pn msg phones st =
      ({ st with calls := st.calls ++ [pn] }, .error (.transport s)) := by
  simp [handleStop, hin, hb]

lemma handleStop_200 {env : Env} {pn : String} {msg : Msg}
    {phones : List String} {st : DbState} {resp : BackendResp}
    (hin : pn ∉ phones)
    (hb : env.backend pn = .ok resp)
    (hs : resp.status = 200)
    (hnew : isProcessed st.ledger msg.id = false) :
    handleStop env pn msg phones st =
      (⟨st.ledger ++
          [⟨msg.id, pn, msg.content, msg.created_at, .unsubscribed, env.now⟩],
        st.calls ++ [pn]⟩,
       .ok (phones ++ [pn])) := by
  simp [handleStop, insertOne, hin, hb, hs, hnew]

lemma handleStop_404 {env : Env} {pn : String} {msg : Msg}
    {phones : List String} {st : DbState} {resp : BackendResp}
    (hin : pn ∉ phones)
    (hb : env.backend pn = .ok resp)
    (hs : resp.status = 404)
    (hnew : isProcessed st.ledger msg.id = false) :
    handleStop env pn msg phones st =
      (⟨st.ledger ++
          [⟨msg.id, pn, msg.content, msg.created_at, .user_not_found, env.now⟩],
        st.calls ++ [pn]⟩,
       .ok (phones ++ [pn])) := by
  simp [handleStop, insertOne, hin, hb, hs, hnew]

lemma handleStop_other {env : Env} {pn : String} {msg : Msg}
    {phones : List String} {st : DbState} {resp : BackendResp}
    (hin : pn ∉ phones)
    (hb : env.backend pn = .ok resp)
    (h200 : resp.status ≠ 200)
    (h404 : resp.status ≠ 404) :
    handleStop env pn msg phones st =
      ({ st with calls := st.calls ++ [pn] },
       .error (.backendStatus
         (resp.error.getD ("Backend returned " ++ toString resp.status)))) := by
  simp [handleStop, hin, hb, h200, h404]

lemma processMessage_stop {env : Env} {msg : Msg}
    {phones : List String} {st : DbState}
    (hc : normalizeContent msg.content = "stop") :
    processMessage env msg phones st =
      handleStop env (normalizePhone msg.user_number) msg phones st := by
  simp [processMessage, hc]

lemma processMessage_other {env : Env} {msg : Msg}
    {phones : List String} {st : DbState}
    (hc : normalizeContent msg.content ≠ "stop")
    (hnew : isProcessed st.ledger msg.id = false) :
    processMessage env msg phones st =
      ({ st with ledger := st.ledger ++
          [⟨msg.id, normalizePhone msg.user_number, msg.content,
            msg.created_at, .ignored, env.now⟩] },
       .ok phones) := by
  simp [processMessage, markProcessed, insertOne, hc, hnew]

lemma handleStop_dup_ledgered {env : Env} {pn : String} {msg : Msg}
    {phones : List String} {st : DbState}
    (hin : pn ∈ phones)
    (hold : isProcessed st.ledger msg.id = true) :
    handleStop env pn msg phones st = (st, .error (.duplicateKey msg.id)) := by
  simp [handleStop, markProcessed, insertOne, hin, hold]

lemma handleStop_200_ledgered {env : Env} {pn : String} {msg : Msg}
    {phones : List String} {st : DbState} {resp : BackendResp}
    (hin : pn ∉ phones)
    (hb : env.backend pn = .ok resp)
    (hs : resp.status = 200)
    (hold : isProcessed st.ledger msg.id = true) :
    handleStop env pn msg phones st =
      ({ st with calls := st.calls ++ [pn] },
       .error (.duplicateKey msg.id)) := by
  simp [handleStop, insertOne, hin, hb, hs, hold]

lemma handleStop_404_ledgered {env : Env} {pn : String} {msg : Msg}
    {phones : List String} {st : DbState} {resp : BackendResp}
    (hin : pn ∉ phones)
    (hb : env.backend pn = .ok resp)
    (hs : resp.status = 404)
    (hold : isProcessed st.ledger msg.id = true) :
    handleStop env pn msg phones st =
      ({ st with calls := st.calls ++ [pn] },
       .error (.duplicateKey msg.id)) := by
  simp [handleStop, insertOne, hin, hb, hs, hold]

lemma processMessage_other_ledgered {env : Env} {msg : Msg}
    {phones : List String} {st : DbState}
    (hc : normalizeContent msg.content ≠ "stop")
    (hold : isProcessed st.ledger msg.id = true) :
    processMessage env msg phones st = (st, .error (.duplicateKey msg.id)) := by
  simp [processMessage, markProcessed, insertOne, hc, hold]

/-! ### Ledger monotonicity: every operation only appends records -/

lemma handleStop_ledger_mono (env : Env) (pn : String) (msg : Msg)
    (phones : List String) (st : DbState) :
    ∃ ext, ((handleStop env pn msg phones st).1).ledger = st.ledger ++ ext := by
  by_cases hin : pn ∈ phones
  · cases hold : isProcessed st.ledger msg.id
    · rw [handleStop_dup hin hold]
      exact ⟨_, rfl⟩
    · rw [handleStop_dup_ledgered hin hold]
      exact ⟨[], by simp⟩
  · cases hb : env.backend pn with
    | error s =>
      rw [handleStop_transport hin hb]
      exact ⟨[], by simp⟩
    | ok resp =>
      by_cases h200 : resp.status = 200
      · cases hold : isProcessed st.ledger msg.id
        · rw [handleStop_200 hin hb h200 hold]
          exact ⟨_, rfl⟩
        · rw [handleStop_200_ledgered hin hb h200 hold]
          exact ⟨[], by simp⟩
      · by_cases h404 : resp.status = 404
        · cases hold : isProcessed st.ledger msg.id
          · rw [handleStop_404 hin hb h404 hold]
            exact ⟨_, rfl⟩
          · rw [handleStop_404_ledgered hin hb h404 hold]
            exact ⟨[], by simp⟩
        · rw [handleStop_other hin hb h200 h404]
          exact ⟨[], by simp⟩

lemma processMessage_ledger_mono (env : Env) (msg : Msg)
    (phones : List String) (st : DbState) :
    ∃ ext, ((processMessage env msg phones st).1).ledger = st.ledger ++ ext := by
  by_cases hc : normalizeContent msg.content = "stop"
  · rw [processMessage_stop hc]
    exact handleStop_ledger_mono env _ msg phones st
  · cases hold : isProcessed st.ledger msg.id
    · rw [processMessage_other hc hold]
      exact ⟨_, rfl⟩
    · rw [processMessage_other_ledgered hc hold]
      exact ⟨[], by simp⟩

lemma processMessages_ledger_mono (env : Env) (msgs : List Msg) :
    ∀ phones st,
      ∃ ext, ((processMessages env msgs phones st).1).ledger = st.ledger ++ ext := by
  induction msgs with
  | nil => exact fun phones st => ⟨[], by simp [processMessages]⟩
  | cons msg rest ih =>
    intro phones st
    rw [processMessages]
    by_cases hskip : isProcessed st.ledger msg.id
    · simpa [hskip] using ih phones st
    · simp only [hskip, if_neg, Bool.false_eq_true, not_false_eq_true, ite_false]
      rcases hpm : processMessage env msg phones st with ⟨st1, r⟩
      obtain ⟨ext1, hext1⟩ := processMessage_ledger_mono env msg phones st
      rw [hpm] at hext1
      cases r with
      | error e => exact ⟨ext1, hext1⟩
      | ok phones' =>
        rcases hrec : processMessages env rest phones' st1 with ⟨st2, r2⟩
        obtain ⟨ext2, hext2⟩ := ih phones' st1
        rw [hrec] at hext2
        simp at hext1 hext2
        cases r2 with
        | error e =>
          exact ⟨ext1 ++ ext2, by simp [hrec, hext2, hext1]⟩
        | ok p =>
          rcases p with ⟨n, ph⟩
          exact ⟨ext1 ++ ext2, by simp [hrec, hext2, hext1]⟩

/-! ### A successful finalize always ledgers the message id -/

lemma handleStop_ok_ledgers {env : Env} {pn : String} {msg : Msg}
    {phones ph' : List String} {st st' : DbState}
    (h : handleStop env pn msg phones st = (st', .ok ph')) :
    isProcessed st'.ledger msg.id = true := by
  by_cases hin : pn ∈ phones
  · cases hold : isProcessed st.ledger msg.id
    · rw [handleStop_dup hin hold] at h
      simp only [Prod.mk.injEq] at h
      obtain ⟨h1, -⟩ := h
      subst h1
      simp [isProcessed, List.any_append]
    · rw [handleStop_dup_ledgered hin hold] at h
      simp_all
  · cases hb : env.backend pn with
    | error s =>
      rw [handleStop_transport hin hb] at h
      simp_all
    | ok resp =>
      by_cases h200 : resp.status = 200
      · cases hold : isProcessed st.ledger msg.id
        · rw [handleStop_200 hin hb h200 hold] at h
          simp only [Prod.mk.injEq] at h
          obtain ⟨h1, -⟩ := h
          subst h1
          simp [isProcessed, List.any_append]
        · rw [handleStop_200_ledgered hin hb h200 hold] at h
          simp_all
      · by_cases h404 : resp.status = 404
        · cases hold : isProcessed st.ledger msg.id
          · rw [handleStop_404 hin hb h404 hold] at h
            simp only [Prod.mk.injEq] at h
            obtain ⟨h1, -⟩ := h
            subst h1
            simp [isProcessed, List.any_append]
          · rw [handleStop_404_ledgered hin hb h404 hold] at h
            simp_all
        · rw [handleStop_other hin hb h200 h404] at h
          simp_all

lemma processMessage_ok_ledgers {env : Env} {msg : Msg}
    {phones ph' : List String} {st st' : DbState}
    (h : processMessage env msg phones st = (st', .ok ph')) :
    isProcessed st'.ledger msg.id = true := by
  by_cases hc : normalizeContent msg.content = "stop"
  · rw [processMessage_stop hc] at h
    exact handleStop_ok_ledgers h
  · cases hold : isProcessed st.ledger msg.id
    · rw [processMessage_other hc hold] at h
      simp only [Prod.mk.injEq] at h
      obtain ⟨h1, -⟩ := h
      subst h1
      simp [isProcessed, List.any_append]
    · rw [processMessage_other_ledgered hc hold] at h
      simp_all

lemma processMessages_ok_all (env : Env) (msgs : List Msg) :
    ∀ phones st st' n ph,
      processMessages env msgs phones st = (st', .ok (n, ph)) →
      ∀ m ∈ msgs, isProcessed st'.ledger m.id = true := by
  induction msgs with
  | nil => intro phones st st' n ph h m hm; cases hm
  | cons msg rest ih =>
    intro phones st st' n ph h m hm
    rw [processMessages] at h
    by_cases hskip : isProcessed st.ledger msg.id
    · rw [if_pos hskip] at h
      rcases List.mem_cons.mp hm with rfl | hm'
      · obtain ⟨ext, hext⟩ := processMessages_ledger_mono env rest phones st
        rw [h] at hext
        simp only at hext
        rw [hext, isProcessed_append, hskip]
        simp
      · exact ih phones st st' n ph h m hm'
    · rw [if_neg hskip] at h
      rcases hpm : processMessage env msg phones st with ⟨st1, r⟩
      rw [hpm] at h
      cases r with
      | error e => simp at h
      | ok phones' =>
        rcases hrec : processMessages env rest phones' st1 with ⟨st2, r2⟩
        dsimp only at h
        rw [hrec] at h
        cases r2 with
        | error e => simp at h
        | ok p =>
          rcases p with ⟨n2, ph2⟩
          simp only [Prod.mk.injEq, Except.ok.injEq] at h
          obtain ⟨rfl, -, rfl⟩ := h
          rcases List.mem_cons.mp hm with rfl | hm'
          · have h1 := processMessage_ok_ledgers hpm
            obtain ⟨ext, hext⟩ := processMessages_ledger_mono env rest phones' st1
            rw [hrec] at hext
            simp only at hext
            rw [hext, isProcessed_append, h1]
            simp
          · exact ih phones' st1 _ n2 _ hrec m hm'

lemma processMessages_skip_all (env : Env) (msgs : List Msg) :
    ∀ phones st,
      (∀ m ∈ msgs, isProcessed st.ledger m.id = true) →
      processMessages env msgs phones st = (st, .ok (0, phones)) := by
  induction msgs with
  | nil => intro phones st _; rw [processMessages]
  | cons msg rest ih =>
    intro phones st hall
    rw [processMessages, if_pos (hall msg (List.mem_cons_self msg rest))]
    exact ih phones st (fun m hm => hall m (List.mem_cons_of_mem msg hm))

/-! ### Claim theorems -/

/-- C1: if a first invocation of `pollAndProcessReplies` completes without
error, a second invocation over the same unchanged feed returns
`processed = 0` with `total` equal to the feed length, leaves the state
(ledger and backend-call log) unchanged, and every message id of the
feed is found by `isProcessed` and skipped. -/
theorem pollAndProcessReplies_idempotent (env : Env) (st st' : DbState)
    (total n : Nat)
    (h : pollAndProcessReplies env st = (st', .ok (total, n))) :
    pollAndProcessReplies env st' = (st', .ok (total, 0)) ∧
    ∃ f, env.feed = .ok f ∧ total = (f.getD []).length ∧
      ∀ m ∈ f.getD [], isProcessed st'.ledger m.id = true := by
  cases hf : env.feed with
  | error e =>
    rw [pollAndProcessReplies, hf] at h
    simp at h
  | ok f =>
    rw [pollAndProcessReplies, hf] at h
    dsimp only at h
    rcases hpm : processMessages env (f.getD []) [] st with ⟨st1, r⟩
    rw [hpm] at h
    cases r with
    | error e => simp at h
    | ok p =>
      rcases p with ⟨n0, ph⟩
      simp only [Prod.mk.injEq, Except.ok.injEq] at h
      obtain ⟨rfl, rfl, rfl⟩ := h
      have hall := processMessages_ok_all env (f.getD []) [] st st1 n0 ph hpm
      refine ⟨?_, f, rfl, rfl, hall⟩
      rw [pollAndProcessReplies, hf]
      dsimp only
      rw [processMessages_skip_all env (f.getD []) [] st1 hall]

/-- C8: if the provider fetch itself fails, `pollAndProcessReplies`
propagates the error and the state is untouched: nothing classified,
no backend call, no ledger write. -/
theorem fetch_failure_no_side_effects (env : Env) (st : DbState) (e : String)
    (h : env.feed = .error e) :
    pollAndProcessReplies env st = (st, .error (.fetchFailure e)) := by
  rw [pollAndProcessReplies, h]

/-- C10: if the provider response carries no `received_text_messages`
field, the run treats the batch as empty and returns
`{total: 0, processed: 0}` without touching the state. -/
theorem missing_feed_field_empty_run (env : Env) (st : DbState)
    (h : env.feed = .ok none) :
    pollAndProcessReplies env st = (st, .ok (0, 0)) := by
  rw [pollAndProcessReplies, h]
  simp [processMessages]

/-! ### Concrete sample data for the witnesses -/

/-- A STOP message whose sender number lacks the leading `+`. -/
def sampleMsg : Msg := ⟨"m1", "447700900123", "stop", 3⟩

/-- A backend that answers 200 to every opt-out POST. -/
def backend200 : String → Except String BackendResp :=
  fun _ => .ok ⟨200, none⟩

/-- A provider feed of one STOP message over the 200-backend. -/
def envPoll : Env := ⟨.ok (some [sampleMsg]), backend200, 7⟩

/-- The empty initial state. -/
def st0 : DbState := ⟨[], []⟩

/-- The state after one successful run of `envPoll` from `st0`. -/
def st1 : DbState :=
  ⟨[⟨"m1", "+447700900123", "stop", 3, .unsubscribed, 7⟩],
   ["+447700900123"]⟩

theorem pollAndProcessReplies_idempotent_witness :
    pollAndProcessReplies envPoll st1 = (st1, .ok (1, 0)) :=
  (pollAndProcessReplies_idempotent envPoll st0 st1 1 1 (by decide)).1

theorem fetch_failure_no_side_effects_witness :
    pollAndProcessReplies ⟨.error "timeout", backend200, 7⟩ st0 =
      (st0, .error (.fetchFailure "timeout")) :=
  fetch_failure_no_side_effects ⟨.error "timeout", backend200, 7⟩ st0
    "timeout" rfl

theorem missing_feed_field_empty_run_witness :
    pollAndProcessReplies ⟨.ok none, backend200, 7⟩ st0 = (st0, .ok (0, 0)) :=
  missing_feed_field_empty_run ⟨.ok none, backend200, 7⟩ st0 rfl

/-- C6: classification is a pure branch on the trimmed, case-folded
content: an un-ledgered message takes the STOP path exactly when the
normalized content equals `"stop"`; for any other content it is
recorded with status `ignored` and the backend is never invoked (the
call log is untouched). -/
theorem classification_pure_branch (env : Env) (msg : Msg)
    (phones : List String) (st : DbState)
    (hnew : isProcessed st.ledger msg.id = false) :
    (normalizeContent msg.content = "stop" →
      processMessage env msg phones st =
        handleStop env (normalizePhone msg.user_number) msg phones st) ∧
    (normalizeContent msg.content ≠ "stop" →
      processMessage env msg phones st =
        (⟨st.ledger ++
            [⟨msg.id, normalizePhone msg.user_number, msg.content,
              msg.created_at, .ignored, env.now⟩],
          st.calls⟩,
         .ok phones)) :=
  ⟨fun hc => processMessage_stop hc,
   fun hc => processMessage_other hc hnew⟩

theorem classification_pure_branch_witness :
    processMessage envPoll ⟨"m9", "+447700900444", "YES", 1⟩ [] st0 =
      (⟨st0.ledger ++
          [⟨"m9", normalizePhone "+447700900444", "YES", 1,
            .ignored, envPoll.now⟩],
        st0.calls⟩,
       .ok []) :=
  (classification_pure_branch envPoll ⟨"m9", "+447700900444", "YES", 1⟩ []
     st0 (by decide)).2 (by decide)

/-- C7: phone normalization: a sender number that does not start with
`"+"` gets a `"+"` prepended before any use — the stored record's
`phoneNumber`, the backend call, and the per-run dedup set all carry the
normalized number — and a number already starting with `"+"` is used
unchanged. -/
theorem phone_normalization (env : Env) (msg : Msg) (phones : List String)
    (st : DbState) (resp : BackendResp) (s : String)
    (hplus : jsStartsWithPlus s = true)
    (hno : jsStartsWithPlus msg.user_number = false)
    (hnew : isProcessed st.ledger msg.id = false)
    (hstop : normalizeContent msg.content = "stop")
    (hnotin : normalizePhone msg.user_number ∉ phones)
    (hb : env.backend (normalizePhone msg.user_number) = .ok resp)
    (h200 : resp.status = 200) :
    normalizePhone "447700900123" = "+447700900123" ∧
    normalizePhone s = s ∧
    normalizePhone msg.user_number = "+" ++ msg.user_number ∧
    processMessage env msg phones st =
      (⟨st.ledger ++
          [⟨msg.id, "+" ++ msg.user_number, msg.content, msg.created_at,
            .unsubscribed, env.now⟩],
        st.calls ++ ["+" ++ msg.user_number]⟩,
       .ok (phones ++ ["+" ++ msg.user_number])) := by
  have hn : normalizePhone msg.user_number = "+" ++ msg.user_number := by
    simp [normalizePhone, hno]
  refine ⟨by decide, by simp [normalizePhone, hplus], hn, ?_⟩
  rw [processMessage_stop hstop, handleStop_200 hnotin hb h200 hnew, hn]

theorem phone_normalization_witness :
    jsStartsWithPlus "+447" = true ∧
    jsStartsWithPlus sampleMsg.user_number = false ∧
    isProcessed st0.ledger sampleMsg.id = false ∧
    normalizeContent sampleMsg.content = "stop" ∧
    normalizePhone sampleMsg.user_number ∉ ([] : List String) ∧
    envPoll.backend (normalizePhone sampleMsg.user_number) =
      .ok ⟨200, none⟩ ∧
    (normalizePhone "447700900123" = "+447700900123" ∧
     normalizePhone "+447" = "+447" ∧
     normalizePhone sampleMsg.user_number = "+" ++ sampleMsg.user_number ∧
     processMessage envPoll sampleMsg [] st0 =
       (⟨st0.ledger ++
           [⟨sampleMsg.id, "+" ++ sampleMsg.user_number, sampleMsg.content,
             sampleMsg.created_at, .unsubscribed, envPoll.now⟩],
         st0.calls ++ ["+" ++ sampleMsg.user_number]⟩,
        .ok ([] ++ ["+" ++ sampleMsg.user_number]))) :=
  ⟨by decide, by decide, by decide, by decide, by decide, by decide,
   phone_normalization envPoll sampleMsg [] st0 ⟨200, none⟩ "+447"
     (by decide) (by decide) (by decide) (by decide) (by decide)
     (by decide) (by decide)⟩

/-- C4: for an un-ledgered STOP message whose phone is not yet in the
per-run set, the backend status determines the terminal status: 200
yields exactly one new `unsubscribed` record, 404 exactly one new
`user_not_found` record, and any other status makes `handleStop` throw
with no record written. -/
theorem stop_status_mapping (env : Env) (pn : String) (msg : Msg)
    (phones : List String) (st : DbState) (resp : BackendResp)
    (hnotin : pn ∉ phones)
    (hnew : isProcessed st.ledger msg.id = false)
    (hb : env.backend pn = .ok resp) :
    (resp.status = 200 →
      handleStop env pn msg phones st =
        (⟨st.ledger ++ [⟨msg.id, pn, msg.content, msg.created_at,
            .unsubscribed, env.now⟩], st.calls ++ [pn]⟩,
         .ok (phones ++ [pn]))) ∧
    (resp.status = 404 →
      handleStop env pn msg phones st =
        (⟨st.ledger ++ [⟨msg.id, pn, msg.content, msg.created_at,
            .user_not_found, env.now⟩], st.calls ++ [pn]⟩,
         .ok (phones ++ [pn]))) ∧
    (resp.status ≠ 200 → resp.status ≠ 404 →
      handleStop env pn msg phones st =
        (⟨st.ledger, st.calls ++ [pn]⟩,
         .error (.backendStatus
           (resp.error.getD ("Backend returned " ++ toString resp.status))))) :=
  ⟨fun h200 => handleStop_200 hnotin hb h200 hnew,
   fun h404 => handleStop_404 hnotin hb h404 hnew,
   fun h200 h404 => handleStop_other hnotin hb h200 h404⟩

theorem stop_status_mapping_witness :
    handleStop envPoll "+447700900123" sampleMsg [] st0 =
      (⟨st0.ledger ++ [⟨"m1", "+447700900123", "stop", 3,
          .unsubscribed, 7⟩], st0.calls ++ ["+447700900123"]⟩,
       .ok ([] ++ ["+447700900123"])) :=
  (stop_status_mapping envPoll "+447700900123" sampleMsg [] st0
      ⟨200, none⟩ (by decide) (by decide) (by decide)).1 rfl

/-- C3: two un-ledgered STOP messages with the same normalized phone in
one fetched batch produce exactly one backend call: the first is
finalized `unsubscribed`, the second `duplicate_stop` with no further
call, and the run reports `{total: 2, processed: 2}`. -/
theorem in_batch_dedup (env : Env) (st : DbState) (mA mB : Msg)
    (resp : BackendResp)
    (hA : isProcessed st.ledger mA.id = false)
    (hB : isProcessed st.ledger mB.id = false)
    (hne : mA.id ≠ mB.id)
    (hphone : normalizePhone mB.user_number = normalizePhone mA.user_number)
    (hstopA : normalizeContent mA.content = "stop")
    (hstopB : normalizeContent mB.content = "stop")
    (hfeed : env.feed = .ok (some [mA, mB]))
    (hb : env.backend (normalizePhone mA.user_number) = .ok resp)
    (h200 : resp.status = 200) :
    pollAndProcessReplies env st =
      (⟨st.ledger ++
          [⟨mA.id, normalizePhone mA.user_number, mA.content, mA.created_at,
            .unsubscribed, env.now⟩,
           ⟨mB.id, normalizePhone mA.user_number, mB.content, mB.created_at,
            .duplicate_stop, env.now⟩],
        st.calls ++ [normalizePhone mA.user_number]⟩,
       .ok (2, 2)) := by
  have h1 : processMessage env mA [] st =
      (⟨st.ledger ++
          [⟨mA.id, normalizePhone mA.user_number, mA.content, mA.created_at,
            .unsubscribed, env.now⟩],
        st.calls ++ [normalizePhone mA.user_number]⟩,
       .ok [normalizePhone mA.user_number]) := by
    rw [processMessage_stop hstopA, handleStop_200 (by simp) hb h200 hA]
    simp
  have h2 : isProcessed
      (st.ledger ++
        [⟨mA.id, normalizePhone mA.user_number, mA.content, mA.created_at,
          .unsubscribed, env.now⟩]) mB.id = false := by
    rw [isProcessed_append, hB]
    simp [isProcessed, hne]
  have h3 : processMessage env mB [normalizePhone mA.user_number]
      ⟨st.ledger ++
          [⟨mA.id, normalizePhone mA.user_number, mA.content, mA.created_at,
            .unsubscribed, env.now⟩],
        st.calls ++ [normalizePhone mA.user_number]⟩ =
      (⟨st.ledger ++
          [⟨mA.id, normalizePhone mA.user_number, mA.content, mA.created_at,
            .unsubscribed, env.now⟩,
           ⟨mB.id, normalizePhone mA.user_number, mB.content, mB.created_at,
            .duplicate_stop, env.now⟩],
        st.calls ++ [normalizePhone mA.user_number]⟩,
       .ok [normalizePhone mA.user_number]) := by
    rw [processMessage_stop hstopB, hphone,
      handleStop_dup (by simp) h2]
    simp
  have hloop : processMessages env [mA, mB] [] st =
      (⟨st.ledger ++
          [⟨mA.id, normalizePhone mA.user_number, mA.content, mA.created_at,
            .unsubscribed, env.now⟩,
           ⟨mB.id, normalizePhone mA.user_number, mB.content, mB.created_at,
            .duplicate_stop, env.now⟩],
        st.calls ++ [normalizePhone mA.user_number]⟩,
       .ok (2, [normalizePhone mA.user_number])) := by
    rw [processMessages, if_neg (by simp [hA]), h1]
    dsimp only
    rw [processMessages, if_neg (by simp [h2]), h3]
    dsimp only
    rw [processMessages]
  simp only [pollAndProcessReplies, hfeed, Option.getD_some]
  rw [hloop]
  simp

theorem in_batch_dedup_witness :
    pollAndProcessReplies
      ⟨.ok (some [⟨"mA", "447700900123", "stop", 1⟩,
                  ⟨"mB", "+447700900123", " STOP ", 2⟩]), backend200, 7⟩
      st0 =
      (⟨st0.ledger ++
          [⟨"mA", normalizePhone "447700900123", "stop", 1,
            .unsubscribed, 7⟩,
           ⟨"mB", normalizePhone "447700900123", " STOP ", 2,
            .duplicate_stop, 7⟩],
        st0.calls ++ [normalizePhone "447700900123"]⟩,
       .ok (2, 2)) :=
  in_batch_dedup
    ⟨.ok (some [⟨"mA", "447700900123", "stop", 1⟩,
                ⟨"mB", "+447700900123", " STOP ", 2⟩]), backend200, 7⟩
    st0 ⟨"mA", "447700900123", "stop", 1⟩ ⟨"mB", "+447700900123", " STOP ", 2⟩
    ⟨200, none⟩ (by decide) (by decide) (by decide) (by decide) (by decide)
    (by decide) rfl rfl rfl

lemma processMessages_append_ok (env : Env) (l1 : List Msg) :
    ∀ l2 phones st st1 n ph,
      processMessages env l1 phones st = (st1, .ok (n, ph)) →
      processMessages env (l1 ++ l2) phones st =
        (match processMessages env l2 ph st1 with
         | (st2, .error e) => (st2, .error e)
         | (st2, .ok (m, ph2)) => (st2, .ok (n + m, ph2))) := by
  induction l1 with
  | nil =>
    intro l2 phones st st1 n ph h
    rw [processMessages] at h
    simp only [Prod.mk.injEq, Except.ok.injEq] at h
    obtain ⟨rfl, rfl, rfl⟩ := h
    rw [List.nil_append]
    rcases hrec : processMessages env l2 phones st with ⟨st2, r2⟩
    cases r2 with
    | error e => simp
    | ok p =>
      rcases p with ⟨m, ph2⟩
      simp
  | cons msg rest ih =>
    intro l2 phones st st1 n ph h
    rw [processMessages] at h
    rw [List.cons_append, processMessages]
    by_cases hskip : isProcessed st.ledger msg.id
    · rw [if_pos hskip] at h ⊢
      exact ih l2 phones st st1 n ph h
    · rw [if_neg hskip] at h ⊢
      rcases hpm : processMessage env msg phones st with ⟨stx, r⟩
      cases r with
      | error e =>
        rw [hpm] at h
        dsimp only at h
        simp at h
      | ok phones' =>
        rw [hpm] at h
        dsimp only at h
        rcases hrec : processMessages env rest phones' stx with ⟨sty, ry⟩
        rw [hrec] at h
        cases ry with
        | error e => simp at h
        | ok p =>
          rcases p with ⟨n0, ph0⟩
          simp only [Prod.mk.injEq, Except.ok.injEq] at h
          obtain ⟨rfl, rfl, rfl⟩ := h
          dsimp only
          rw [ih l2 phones' stx sty n0 ph0 hrec]
          rcases hrec2 : processMessages env l2 ph0 sty with ⟨st2, r2⟩
          cases r2 with
          | error e => simp
          | ok q =>
            rcases q with ⟨m, ph2⟩
            simp [Nat.add_right_comm]

/-- C5: a backend failure (transport error, or a status other than
200/404) while handling message `mkMsg` propagates out of
`pollAndProcessReplies` immediately: the final state is exactly the
state reached after the failing call (messages after `mkMsg` are never
classified, called, or ledgered — the result does not depend on `post`),
no record is written for `mkMsg`, and everything the run ledgered before
`mkMsg` persists (the ledger only grew). -/
theorem backend_failure_fail_fast (env : Env) (st st1 : DbState)
    (pre post : List Msg) (mkMsg : Msg) (phones1 : List String) (n : Nat)
    (hpre : processMessages env pre [] st = (st1, .ok (n, phones1)))
    (hnew : isProcessed st1.ledger mkMsg.id = false)
    (hstop : normalizeContent mkMsg.content = "stop")
    (hnotin : normalizePhone mkMsg.user_number ∉ phones1)
    (hfail : (∃ s, env.backend (normalizePhone mkMsg.user_number) = .error s) ∨
      (∃ resp, env.backend (normalizePhone mkMsg.user_number) = .ok resp ∧
        resp.status ≠ 200 ∧ resp.status ≠ 404))
    (hfeed : env.feed = .ok (some (pre ++ mkMsg :: post))) :
    (∃ e, pollAndProcessReplies env st =
      (⟨st1.ledger, st1.calls ++ [normalizePhone mkMsg.user_number]⟩,
       .error e)) ∧
    ∃ ext, st1.ledger = st.ledger ++ ext := by
  obtain ⟨ext, hext⟩ := processMessages_ledger_mono env pre [] st
  rw [hpre] at hext
  simp at hext
  obtain ⟨e, hstep⟩ : ∃ e, processMessage env mkMsg phones1 st1 =
      ({ st1 with calls :=
          st1.calls ++ [normalizePhone mkMsg.user_number] }, .error e) := by
    rcases hfail with ⟨s, hb⟩ | ⟨resp, hb, h200, h404⟩
    · exact ⟨_, by
        rw [processMessage_stop hstop, handleStop_transport hnotin hb]⟩
    · exact ⟨_, by
        rw [processMessage_stop hstop,
          handleStop_other hnotin hb h200 h404]⟩
  have hcons : processMessages env (mkMsg :: post) phones1 st1 =
      ({ st1 with calls :=
          st1.calls ++ [normalizePhone mkMsg.user_number] }, .error e) := by
    rw [processMessages, if_neg (by simp [hnew]), hstep]
  refine ⟨⟨e, ?_⟩, ext, hext⟩
  simp only [pollAndProcessReplies, hfeed, Option.getD_some]
  rw [processMessages_append_ok env pre (mkMsg :: post) [] st st1 n
    phones1 hpre, hcons]

/-- A backend that answers 500 with an error body to every POST. -/
def backend500 : String → Except String BackendResp :=
  fun _ => .ok ⟨500, some "Server exploded"⟩

theorem backend_failure_fail_fast_witness :
    (∃ e, pollAndProcessReplies
        ⟨.ok (some [⟨"mErr", "+447700900333", "stop", 4⟩]), backend500, 7⟩
        st0 =
      (⟨st0.ledger,
        st0.calls ++ [normalizePhone "+447700900333"]⟩, .error e)) ∧
    ∃ ext, st0.ledger = st0.ledger ++ ext :=
  backend_failure_fail_fast
    ⟨.ok (some [⟨"mErr", "+447700900333", "stop", 4⟩]), backend500, 7⟩
    st0 st0 [] [] ⟨"mErr", "+447700900333", "stop", 4⟩ [] 0
    rfl (by decide) (by decide) (by decide)
    (Or.inr ⟨⟨500, some "Server exploded"⟩, rfl, by decide, by decide⟩)
    rfl

/-- C2 counterexample: a unique-key violation is *not* treated as a
benign outcome.  On a ledger that already holds `messageId` `"m1"`
(e.g. written by a concurrently racing run), `markProcessed` returns the
duplicate-key rejection to its caller, and `handleStop` (here on its
duplicate-in-batch path, whose `markProcessed` hits the same violation)
rethrows it rather than treating the message as handled. -/
theorem duplicate_key_benign_cex :
    (markProcessed
        ⟨[⟨"m1", "+447700900123", "stop", 3, .unsubscribed, 7⟩], []⟩
        "m1" "+447700900123" "stop" 3 7 .ignored).2 =
      .error (.duplicateKey "m1") ∧
    (handleStop envPoll "+447700900123" sampleMsg ["+447700900123"]
        ⟨[⟨"m1", "+447700900123", "stop", 3, .unsubscribed, 7⟩], []⟩).2 =
      .error (.duplicateKey "m1") := by
  decide

/-- C2 amended: the pipeline contains no handling for unique-key
violations: when the message id is already ledgered, `markProcessed`
returns the duplicate-key error to its caller unchanged, and
`handleStop` rethrows it (its `catch` merely logs), so the violation
propagates as a run-ending error; the ledger itself is untouched. -/
theorem duplicate_key_violation_propagates (env : Env) (st : DbState)
    (msg : Msg) (pn : String) (phones : List String) (s : Status)
    (hold : isProcessed st.ledger msg.id = true)
    (hin : pn ∈ phones) :
    markProcessed st msg.id pn msg.content msg.created_at env.now s =
      (st, .error (.duplicateKey msg.id)) ∧
    handleStop env pn msg phones st = (st, .error (.duplicateKey msg.id)) :=
  ⟨insertOne_of_dup hold, handleStop_dup_ledgered hin hold⟩

theorem duplicate_key_violation_propagates_witness :
    isProcessed
      [LedgerRecord.mk "m1" "+447700900123" "stop" 3 .unsubscribed 7]
      "m1" = true ∧
    markProcessed
        ⟨[⟨"m1", "+447700900123", "stop", 3, .unsubscribed, 7⟩], []⟩
        "m1" "+447700900123" "stop" 3 7 .duplicate_stop =
      (⟨[⟨"m1", "+447700900123", "stop", 3, .unsubscribed, 7⟩], []⟩,
       .error (.duplicateKey "m1")) :=
  ⟨by decide,
   (duplicate_key_violation_propagates envPoll
      ⟨[⟨"m1", "+447700900123", "stop", 3, .unsubscribed, 7⟩], []⟩
      sampleMsg "+447700900123" ["+447700900123"] .duplicate_stop
      (by decide) (by decide)).1⟩

/-- C9: the manual-trigger handler answers 200 with
`{success: true, total, processed}` exactly when `pollAndProcessReplies`
returns normally, and 500 with the generic error name and the fixed
message `"Failed to process SMS replies"` (no internal detail) when it
throws. -/
theorem processSmsRepliesHandler_mapping (env : Env) (st st' : DbState) :
    (∀ t p, pollAndProcessReplies env st = (st', .ok (t, p)) →
      processSmsRepliesHandler env st =
        ⟨200, some true, some t, some p, none, none⟩) ∧
    (∀ e, pollAndProcessReplies env st = (st', .error e) →
      processSmsRepliesHandler env st =
        ⟨500, none, none, none, some "Internal Server Error",
         some "Failed to process SMS replies"⟩) := by
  constructor
  · intro t p h
    rw [processSmsRepliesHandler, h]
  · intro e h
    rw [processSmsRepliesHandler, h]
    rfl

theorem processSmsRepliesHandler_mapping_witness :
    processSmsRepliesHandler ⟨.error "boom", backend200, 7⟩ st0 =
      ⟨500, none, none, none, some "Internal Server Error",
       some "Failed to process SMS replies"⟩ :=
  (processSmsRepliesHandler_mapping ⟨.error "boom", backend200, 7⟩
      st0 st0).2 (.fetchFailure "boom") (by decide)
